import Mathlib

/-!
Verification of the RTK_ROVER_CAMAS firmware against its specification.

The development shallowly embeds the C sources:
* `src/zed_rover.c` — the UBX frame decoder (`zed_rover_get_position`, the
  `ubx_buffer` accumulator, `ubx_checksum`) and the bus transport
  (`zed_rover_available`);
* `src/ntrip_client.c` — the NTRIP correction client (`base64_encode`,
  `ntrip_client_connect`, `ntrip_client_receive`);
* the WiFi connectivity manager (`find_best_network`).

Bytes are modelled as `Nat` (values < 256 on real inputs); machine integers
are `Nat`/`Int` with explicit `% 2 ^ w` where wrap-around matters; I/O is
modelled by passing the outcome of each external call as an explicit argument.
-/

set_option maxHeartbeats 1000000
set_option maxRecDepth 100000

/-- `buf[k]` for a C byte buffer: reads are always in bounds in the modelled
code paths, so the default 0 is never observable there. -/
def byteAt (buf : List Nat) (k : Nat) : Nat := buf.getD k 0

/-- Bitwise-or against a left-shifted value is plain addition when the low
bits are free: this is the arithmetic content of the C idiom `x | (a << n)`
used throughout the sources to assemble multi-byte integers. -/
theorem lor_shiftLeft_eq_add (x a n : Nat) (hx : x < 2 ^ n) :
    x ||| (a <<< n) = x + 2 ^ n * a := by
  apply Nat.eq_of_testBit_eq
  intro j
  rw [Nat.testBit_lor, Nat.testBit_shiftLeft, Nat.add_comm x (2 ^ n * a),
    Nat.testBit_mul_pow_two_add a hx j]
  rcases Nat.lt_or_ge j n with h | h
  · simp [h, Nat.not_le.mpr h]
  · have : x.testBit j = false :=
      Nat.testBit_lt_two_pow (Nat.lt_of_lt_of_le hx (Nat.pow_le_pow_right (by omega) h))
    simp [h, Nat.not_lt.mpr h, this]

/-!  ## Frame decoder (`src/zed_rover.c`)  -/

/-- The loop body of `ubx_checksum`: `ck_a += data[i]; ck_b += ck_a;` on
`uint8_t` accumulators. -/
def ubx_checksum_go : List Nat → Nat → Nat → Nat × Nat
  | [], ck_a, ck_b => (ck_a, ck_b)
  | d :: rest, ck_a, ck_b =>
    ubx_checksum_go rest ((ck_a + d) % 256) ((ck_b + (ck_a + d) % 256) % 256)

/-- `ubx_checksum` from `zed_rover.c`: the order-dependent 8-bit running-sum
pair over the given bytes, starting from `(0, 0)`. -/
def ubx_checksum (data : List Nat) : Nat × Nat := ubx_checksum_go data 0 0

/-- The two-byte UBX synchronization marker `0xB5 0x62` at offset `j`. -/
def syncAt (buf : List Nat) (j : Nat) : Prop :=
  byteAt buf j = 0xB5 ∧ byteAt buf (j + 1) = 0x62

instance (buf : List Nat) (j : Nat) : Decidable (syncAt buf j) :=
  decidable_of_iff (byteAt buf j = 0xB5 ∧ byteAt buf (j + 1) = 0x62) Iff.rfl

/-- The little-endian payload length `ubx_buffer[i+4] | (ubx_buffer[i+5] << 8)`. -/
def ubx_payload_len (buf : List Nat) (i : Nat) : Nat :=
  byteAt buf (i + 4) ||| (byteAt buf (i + 5) <<< 8)

/-- The checksum comparison of `zed_rover_get_position`: the running-sum pair
over `class..payload` equals the two stored checksum bytes. -/
def checksumOk (buf : List Nat) (i plen : Nat) : Prop :=
  (ubx_checksum ((buf.drop (i + 2)).take (4 + plen))).1 = byteAt buf (i + 6 + plen) ∧
  (ubx_checksum ((buf.drop (i + 2)).take (4 + plen))).2 = byteAt buf (i + 7 + plen)

instance (buf : List Nat) (i plen : Nat) : Decidable (checksumOk buf i plen) :=
  decidable_of_iff (_ ∧ _) Iff.rfl

/-- The NAV-PVT header test `msg_class == 0x01 && msg_id == 0x07 && payload_len == 92`. -/
def isTargetHeader (buf : List Nat) (i plen : Nat) : Prop :=
  byteAt buf (i + 2) = 0x01 ∧ byteAt buf (i + 3) = 0x07 ∧ plen = 92

instance (buf : List Nat) (i plen : Nat) : Decidable (isTargetHeader buf i plen) :=
  decidable_of_iff (_ ∧ _ ∧ _) Iff.rfl

/-- Two's-complement reinterpretation of a 32-bit pattern, the effect of
assigning the assembled `uint` value to an `int32_t`. -/
def toInt32 (n : Nat) : Int :=
  if n % 2 ^ 32 < 2 ^ 31 then ((n % 2 ^ 32 : Nat) : Int) else ((n % 2 ^ 32 : Nat) : Int) - 2 ^ 32

/-- `p[k] | (p[k+1]<<8) | (p[k+2]<<16) | (p[k+3]<<24)`: the little-endian
32-bit read used for every 4-byte NAV-PVT field. -/
def le32 (p : List Nat) (k : Nat) : Nat :=
  ((byteAt p k ||| (byteAt p (k + 1) <<< 8)) ||| (byteAt p (k + 2) <<< 16)) |||
    (byteAt p (k + 3) <<< 24)

/-- `zed_position_t` from `zed_rover.h`.  The C struct stores the scaled
`double`/`float` values; here the four scaled fields keep their exact raw
integer value and the scaled views are the rational-valued functions below. -/
structure zed_position_t where
  year : Nat
  month : Nat
  day : Nat
  hour : Nat
  min : Nat
  sec : Nat
  fix_type : Nat
  carr_soln : Nat
  num_sv : Nat
  lon_raw : Int
  lat_raw : Int
  alt_raw : Int
  h_acc_raw : Nat
  v_acc_raw : Nat
  valid : Bool
  deriving DecidableEq, Repr

/-- `lon_raw * 1e-7` (degrees). -/
def zed_position_t.longitude (z : zed_position_t) : ℚ := (z.lon_raw : ℚ) / 10 ^ 7

/-- `lat_raw * 1e-7` (degrees). -/
def zed_position_t.latitude (z : zed_position_t) : ℚ := (z.lat_raw : ℚ) / 10 ^ 7

/-- `alt_raw / 1000.0` (metres above mean sea level). -/
def zed_position_t.altitude_msl (z : zed_position_t) : ℚ := (z.alt_raw : ℚ) / 1000

/-- `h_acc_raw / 1000.0f` (metres). -/
def zed_position_t.h_acc (z : zed_position_t) : ℚ := (z.h_acc_raw : ℚ) / 1000

/-- `v_acc_raw / 1000.0f` (metres). -/
def zed_position_t.v_acc (z : zed_position_t) : ℚ := (z.v_acc_raw : ℚ) / 1000

/-- The NAV-PVT payload decode of `zed_rover_get_position` (lines 224–262),
applied to the 92-byte payload `p`. -/
def parsePVT (p : List Nat) : zed_position_t :=
  { year := byteAt p 4 ||| (byteAt p 5 <<< 8)
    month := byteAt p 6
    day := byteAt p 7
    hour := byteAt p 8
    min := byteAt p 9
    sec := byteAt p 10
    fix_type := byteAt p 20
    carr_soln := (byteAt p 21 >>> 6) &&& 0x03
    num_sv := byteAt p 23
    lon_raw := toInt32 (le32 p 24)
    lat_raw := toInt32 (le32 p 28)
    alt_raw := toInt32 (le32 p 36)
    h_acc_raw := le32 p 40
    v_acc_raw := le32 p 44
    valid := decide (byteAt p 11 &&& 0x01 ≠ 0 ∧ 2 ≤ byteAt p 20) }

/-- The frame-scanning `for` loop of `zed_rover_get_position` (lines 196–282),
started at scan index `i` with `resolved` frames already consumed this call.
Returns the accumulator left behind, the decoded fix if a NAV-PVT frame was
resolved, and the updated count of successfully resolved frames.
`continue` after a checksum mismatch (or a non-marker byte) is the `i + 1`
recursion; consuming a non-target frame removes it together with everything
before it and restarts the scan at the new buffer head (`i = -1` in C). -/
def scanLoop (buf : List Nat) (i resolved : Nat) : List Nat × Option zed_position_t × Nat :=
  if h : i + 8 < buf.length then
    if syncAt buf i then
      if buf.length < i + (6 + ubx_payload_len buf i + 2) then (buf, none, resolved)
      else if checksumOk buf i (ubx_payload_len buf i) then
        if isTargetHeader buf i (ubx_payload_len buf i) then
          (buf.drop (i + (6 + ubx_payload_len buf i + 2)),
            some (parsePVT ((buf.drop (i + 6)).take 92)), resolved + 1)
        else scanLoop (buf.drop (i + (6 + ubx_payload_len buf i + 2))) 0 (resolved + 1)
      else scanLoop buf (i + 1) resolved
    else scanLoop buf (i + 1) resolved
  else (buf, none, resolved)
termination_by (buf.length, buf.length - i)
decreasing_by
  · apply Prod.Lex.left
    simp only [List.length_drop]
    omega
  · apply Prod.Lex.right
    omega
  · apply Prod.Lex.right
    omega

/-- Appending freshly read bytes to `ubx_buffer` (lines 190–193): silently
truncated to the free space left in the 256-byte buffer. -/
def appendChunk (buf chunk : List Nat) : List Nat :=
  buf ++ chunk.take (min chunk.length (256 - buf.length))

/-- The accumulate-and-parse portion of `zed_rover_get_position`: `chunk` is
what `zed_rover_read` returned this call (the early `return false` on
`read_len <= 0` is the empty-chunk case), `buf` is the `ubx_buffer` contents.
Returns the new accumulator contents and the decoded fix, if any; applies the
`ubx_buffer_len > 200` anti-desync clear when no fix was returned. -/
def zed_rover_get_position (chunk buf : List Nat) : List Nat × Option zed_position_t :=
  if chunk.isEmpty then (buf, none)
  else
    match scanLoop (appendChunk buf chunk) 0 0 with
    | (buf2, some fix, _) => (buf2, some fix)
    | (buf2, none, _) => (if 200 < buf2.length then [] else buf2, none)

/-- Iterating `zed_rover_get_position` over successive reads, collecting every
fix it returns.  Models a sequence of orchestrator ticks. -/
def feedAll : List (List Nat) → List Nat → List Nat × List zed_position_t
  | [], buf => (buf, [])
  | c :: rest, buf =>
    ((feedAll rest (zed_rover_get_position c buf).1).1,
      (zed_rover_get_position c buf).2.toList ++ (feedAll rest (zed_rover_get_position c buf).1).2)

/-- A well-formed NAV-PVT wire frame around the given 92-byte payload:
sync marker, class `0x01`, id `0x07`, little-endian length 92, payload,
running-sum checksum pair. -/
def targetFrame (payload : List Nat) : List Nat :=
  [0xB5, 0x62] ++ ([0x01, 0x07, 92, 0] ++ payload) ++
    [(ubx_checksum ([0x01, 0x07, 92, 0] ++ payload)).1,
     (ubx_checksum ([0x01, 0x07, 92, 0] ++ payload)).2]

/-!  ### Step characterization of the scan loop  -/

theorem scanLoop_stop_short (buf : List Nat) (i r : Nat) (h : ¬ i + 8 < buf.length) :
    scanLoop buf i r = (buf, none, r) := by
  unfold scanLoop
  rw [dif_neg h]

theorem scanLoop_adv_nosync (buf : List Nat) (i r : Nat) (h : i + 8 < buf.length)
    (hs : ¬ syncAt buf i) : scanLoop buf i r = scanLoop buf (i + 1) r := by
  conv_lhs => rw [scanLoop]
  rw [dif_pos h, if_neg hs]

theorem scanLoop_stop_incomplete (buf : List Nat) (i r : Nat) (h : i + 8 < buf.length)
    (hs : syncAt buf i) (hi : buf.length < i + (6 + ubx_payload_len buf i + 2)) :
    scanLoop buf i r = (buf, none, r) := by
  unfold scanLoop
  rw [dif_pos h, if_pos hs, if_pos hi]

theorem scanLoop_adv_badck (buf : List Nat) (i r : Nat) (h : i + 8 < buf.length)
    (hs : syncAt buf i) (hi : ¬ buf.length < i + (6 + ubx_payload_len buf i + 2))
    (hc : ¬ checksumOk buf i (ubx_payload_len buf i)) :
    scanLoop buf i r = scanLoop buf (i + 1) r := by
  conv_lhs => rw [scanLoop]
  rw [dif_pos h, if_pos hs, if_neg hi, if_neg hc]

theorem scanLoop_emit (buf : List Nat) (i r : Nat) (h : i + 8 < buf.length)
    (hs : syncAt buf i) (hi : ¬ buf.length < i + (6 + ubx_payload_len buf i + 2))
    (hc : checksumOk buf i (ubx_payload_len buf i))
    (ht : isTargetHeader buf i (ubx_payload_len buf i)) :
    scanLoop buf i r = (buf.drop (i + (6 + ubx_payload_len buf i + 2)),
      some (parsePVT ((buf.drop (i + 6)).take 92)), r + 1) := by
  unfold scanLoop
  rw [dif_pos h, if_pos hs, if_neg hi, if_pos hc, if_pos ht]

theorem scanLoop_consume (buf : List Nat) (i r : Nat) (h : i + 8 < buf.length)
    (hs : syncAt buf i) (hi : ¬ buf.length < i + (6 + ubx_payload_len buf i + 2))
    (hc : checksumOk buf i (ubx_payload_len buf i))
    (ht : ¬ isTargetHeader buf i (ubx_payload_len buf i)) :
    scanLoop buf i r = scanLoop (buf.drop (i + (6 + ubx_payload_len buf i + 2))) 0 (r + 1) := by
  conv_lhs => rw [scanLoop]
  rw [dif_pos h, if_pos hs, if_neg hi, if_pos hc, if_neg ht]

/-- The resolved-frame count never decreases along the scan. -/
theorem scanLoop_resolved_le (buf : List Nat) (i r : Nat) :
    r ≤ (scanLoop buf i r).2.2 := by
  induction buf, i, r using scanLoop.induct with
  | case1 buf i r h hs hi =>
    rw [scanLoop_stop_incomplete buf i r h hs hi]
  | case2 buf i r h hs hi hc ht =>
    rw [scanLoop_emit buf i r h hs hi hc ht]
    exact Nat.le_succ r
  | case3 buf i r h hs hi hc ht ih =>
    rw [scanLoop_consume buf i r h hs hi hc ht]
    exact Nat.le_trans (Nat.le_succ r) ih
  | case4 buf i r h hs hi hc ih =>
    rw [scanLoop_adv_badck buf i r h hs hi hc]
    exact ih
  | case5 buf i r h hs ih =>
    rw [scanLoop_adv_nosync buf i r h hs]
    exact ih
  | case6 buf i r h =>
    rw [scanLoop_stop_short buf i r h]

/-- If a scan pass resolves no frame, it leaves the accumulator untouched and
returns no fix. -/
theorem scanLoop_resolved_eq (buf : List Nat) (i r : Nat)
    (h0 : (scanLoop buf i r).2.2 = r) : scanLoop buf i r = (buf, none, r) := by
  induction buf, i, r using scanLoop.induct with
  | case1 buf i r h hs hi =>
    exact scanLoop_stop_incomplete buf i r h hs hi
  | case2 buf i r h hs hi hc ht =>
    rw [scanLoop_emit buf i r h hs hi hc ht] at h0
    simp at h0
  | case3 buf i r h hs hi hc ht ih =>
    rw [scanLoop_consume buf i r h hs hi hc ht] at h0
    have := scanLoop_resolved_le (buf.drop (i + (6 + ubx_payload_len buf i + 2))) 0 (r + 1)
    omega
  | case4 buf i r h hs hi hc ih =>
    rw [scanLoop_adv_badck buf i r h hs hi hc] at h0 ⊢
    exact ih h0
  | case5 buf i r h hs ih =>
    rw [scanLoop_adv_nosync buf i r h hs] at h0 ⊢
    exact ih h0
  | case6 buf i r h =>
    exact scanLoop_stop_short buf i r h

/-- A scan over a region with no synchronization marker finds nothing. -/
theorem scanLoop_nosync (buf : List Nat) (i r : Nat)
    (h0 : ∀ j, i ≤ j → j + 8 < buf.length → ¬ syncAt buf j) :
    scanLoop buf i r = (buf, none, r) := by
  induction buf, i, r using scanLoop.induct with
  | case1 buf i r h hs hi =>
    exact absurd hs (h0 i (Nat.le_refl i) h)
  | case2 buf i r h hs hi hc ht =>
    exact absurd hs (h0 i (Nat.le_refl i) h)
  | case3 buf i r h hs hi hc ht ih =>
    exact absurd hs (h0 i (Nat.le_refl i) h)
  | case4 buf i r h hs hi hc ih =>
    exact absurd hs (h0 i (Nat.le_refl i) h)
  | case5 buf i r h hs ih =>
    rw [scanLoop_adv_nosync buf i r h hs]
    exact ih fun j hj => h0 j (by omega)
  | case6 buf i r h =>
    exact scanLoop_stop_short buf i r h

/-!  ### Behaviour of the decoder on a well-formed NAV-PVT frame  -/

theorem byteAt_append_left (p t : List Nat) (k : Nat) (hk : k < p.length) :
    byteAt (p ++ t) k = byteAt p k :=
  List.getD_append p t 0 k hk

theorem targetFrame_length (payload : List Nat) (h92 : payload.length = 92) :
    (targetFrame payload).length = 100 := by
  simp [targetFrame, h92]

theorem targetFrame_byte_header (payload : List Nat) :
    byteAt (targetFrame payload) 0 = 0xB5 ∧ byteAt (targetFrame payload) 1 = 0x62 ∧
    byteAt (targetFrame payload) 2 = 0x01 ∧ byteAt (targetFrame payload) 3 = 0x07 ∧
    byteAt (targetFrame payload) 4 = 92 ∧ byteAt (targetFrame payload) 5 = 0 := by
  simp [targetFrame, byteAt]

theorem targetFrame_plen (payload : List Nat) :
    ubx_payload_len (targetFrame payload) 0 = 92 := by
  unfold ubx_payload_len
  rw [(targetFrame_byte_header payload).2.2.2.2.1, (targetFrame_byte_header payload).2.2.2.2.2]
  rfl

theorem targetFrame_drop2 (payload : List Nat) :
    (targetFrame payload).drop 2 = ([0x01, 0x07, 92, 0] ++ payload) ++
      [(ubx_checksum ([0x01, 0x07, 92, 0] ++ payload)).1,
       (ubx_checksum ([0x01, 0x07, 92, 0] ++ payload)).2] := by
  simp [targetFrame]

theorem targetFrame_drop6 (payload : List Nat) :
    (targetFrame payload).drop 6 = payload ++
      [(ubx_checksum ([0x01, 0x07, 92, 0] ++ payload)).1,
       (ubx_checksum ([0x01, 0x07, 92, 0] ++ payload)).2] := by
  simp [targetFrame]

theorem targetFrame_ck_bytes (payload : List Nat) (h92 : payload.length = 92) :
    byteAt (targetFrame payload) 98 = (ubx_checksum ([0x01, 0x07, 92, 0] ++ payload)).1 ∧
    byteAt (targetFrame payload) 99 = (ubx_checksum ([0x01, 0x07, 92, 0] ++ payload)).2 := by
  have hf : targetFrame payload = ([0xB5, 0x62] ++ ([0x01, 0x07, 92, 0] ++ payload)) ++
      [(ubx_checksum ([0x01, 0x07, 92, 0] ++ payload)).1,
       (ubx_checksum ([0x01, 0x07, 92, 0] ++ payload)).2] := by
    simp [targetFrame]
  have hlen : ([0xB5, 0x62] ++ ([0x01, 0x07, 92, 0] ++ payload)).length = 98 := by
    simp [h92]
  constructor
  · show (targetFrame payload).getD 98 0 = _
    rw [hf, List.getD_append_right _ _ _ _ (by omega), hlen]
    rfl
  · show (targetFrame payload).getD 99 0 = _
    rw [hf, List.getD_append_right _ _ _ _ (by omega), hlen]
    rfl

theorem targetFrame_checksumOk (payload : List Nat) (h92 : payload.length = 92) :
    checksumOk (targetFrame payload) 0 92 := by
  constructor
  · show (ubx_checksum (((targetFrame payload).drop 2).take 96)).1 = byteAt (targetFrame payload) 98
    rw [targetFrame_drop2, List.take_left' (by simp [h92]), (targetFrame_ck_bytes payload h92).1]
  · show (ubx_checksum (((targetFrame payload).drop 2).take 96)).2 = byteAt (targetFrame payload) 99
    rw [targetFrame_drop2, List.take_left' (by simp [h92]), (targetFrame_ck_bytes payload h92).2]

/-- A complete well-formed NAV-PVT frame at the buffer head is decoded and
fully consumed in one pass. -/
theorem scanLoop_targetFrame (payload : List Nat) (h92 : payload.length = 92) :
    scanLoop (targetFrame payload) 0 0 = ([], some (parsePVT payload), 1) := by
  have hlen := targetFrame_length payload h92
  have hplen := targetFrame_plen payload
  have hdr := targetFrame_byte_header payload
  rw [scanLoop_emit (targetFrame payload) 0 0 (by omega)
    ⟨hdr.1, hdr.2.1⟩ (by rw [hplen]; omega)
    (by rw [hplen]; exact targetFrame_checksumOk payload h92)
    (by rw [hplen]; exact ⟨hdr.2.2.1, hdr.2.2.2.1, rfl⟩)]
  rw [hplen]
  have h1 : (targetFrame payload).drop (0 + (6 + 92 + 2)) = [] := by
    rw [show 0 + (6 + 92 + 2) = 100 from rfl, ← hlen, List.drop_length]
  have h2 : ((targetFrame payload).drop (0 + 6)).take 92 = payload := by
    rw [show (0 + 6 : Nat) = 6 from rfl, targetFrame_drop6, List.take_left' h92]
  rw [h1, h2]

/-- A proper prefix of a well-formed NAV-PVT frame is recognized as an
incomplete message: the scan stops and leaves the accumulator untouched. -/
theorem scanLoop_targetFrame_incomplete (payload p t : List Nat) (h92 : payload.length = 92)
    (happ : p ++ t = targetFrame payload) (hlt : p.length < 100) :
    scanLoop p 0 0 = (p, none, 0) := by
  rcases Nat.lt_or_ge p.length 9 with hs | hs
  · exact scanLoop_stop_short p 0 0 (by omega)
  · have hb : ∀ k, k < p.length → byteAt p k = byteAt (targetFrame payload) k := by
      intro k hk
      rw [← happ, byteAt_append_left p t k hk]
    have hdr := targetFrame_byte_header payload
    have hsync : syncAt p 0 := by
      constructor
      · rw [hb 0 (by omega)]
        exact hdr.1
      · rw [hb 1 (by omega)]
        exact hdr.2.1
    have hplen : ubx_payload_len p 0 = 92 := by
      unfold ubx_payload_len
      rw [hb 4 (by omega), hb 5 (by omega), hdr.2.2.2.2.1, hdr.2.2.2.2.2]
      rfl
    exact scanLoop_stop_incomplete p 0 0 (by omega) hsync (by rw [hplen]; omega)

/-!  ### Feeding a frame split across arbitrarily many calls  -/

theorem zed_rover_get_position_empty (buf : List Nat) :
    zed_rover_get_position [] buf = (buf, none) := by
  simp [zed_rover_get_position]

theorem appendChunk_of_le (buf chunk : List Nat) (h : buf.length + chunk.length ≤ 256) :
    appendChunk buf chunk = buf ++ chunk := by
  unfold appendChunk
  rw [Nat.min_eq_left (by omega), List.take_length]

theorem zed_rover_get_position_incomplete (payload p c t : List Nat) (hne : ¬ c.isEmpty)
    (happ : (p ++ c) ++ t = targetFrame payload) (h92 : payload.length = 92)
    (hlt : (p ++ c).length < 100) :
    zed_rover_get_position c p = (p ++ c, none) := by
  unfold zed_rover_get_position
  rw [if_neg hne, appendChunk_of_le p c (by simp at hlt ⊢; omega),
    scanLoop_targetFrame_incomplete payload (p ++ c) t h92 happ hlt]
  have hn : ¬ 200 < (p ++ c).length := by omega
  show (if 200 < (p ++ c).length then [] else p ++ c, none) = (p ++ c, none)
  rw [if_neg hn]

theorem zed_rover_get_position_complete (payload p c : List Nat) (hne : ¬ c.isEmpty)
    (happ : p ++ c = targetFrame payload) (h92 : payload.length = 92) :
    zed_rover_get_position c p = ([], some (parsePVT payload)) := by
  have hlen : (p ++ c).length = 100 := by rw [happ]; exact targetFrame_length payload h92
  unfold zed_rover_get_position
  rw [if_neg hne, appendChunk_of_le p c (by simp at hlen ⊢; omega), happ,
    scanLoop_targetFrame payload h92]

theorem feedAll_cons_eq (c : List Nat) (rest : List (List Nat)) (p buf1 : List Nat)
    (fx : Option zed_position_t) (h : zed_rover_get_position c p = (buf1, fx)) :
    feedAll (c :: rest) p = ((feedAll rest buf1).1, fx.toList ++ (feedAll rest buf1).2) := by
  show ((feedAll rest (zed_rover_get_position c p).1).1,
    (zed_rover_get_position c p).2.toList ++ (feedAll rest (zed_rover_get_position c p).1).2) = _
  rw [h]

theorem feedAll_nil_chunks (chunks : List (List Nat)) (buf : List Nat)
    (h : chunks.flatten = []) : feedAll chunks buf = (buf, []) := by
  induction chunks with
  | nil => rfl
  | cons c rest ih =>
    rw [List.flatten_cons, List.append_eq_nil] at h
    rw [feedAll_cons_eq c rest buf buf none
      (by rw [h.1]; exact zed_rover_get_position_empty buf), ih h.2]
    rfl

theorem feedAll_complete_run (payload : List Nat) (h92 : payload.length = 92) :
    ∀ (chunks : List (List Nat)) (p : List Nat),
      p ++ chunks.flatten = targetFrame payload → p.length < 100 →
      feedAll chunks p = ([], [parsePVT payload]) := by
  intro chunks
  induction chunks with
  | nil =>
    intro p happ hlt
    rw [List.flatten_nil, List.append_nil] at happ
    rw [happ, targetFrame_length payload h92] at hlt
    omega
  | cons c rest ih =>
    intro p happ hlt
    rw [List.flatten_cons] at happ
    by_cases hc : c.isEmpty
    · rw [List.isEmpty_iff.mp hc, List.nil_append] at happ
      rw [feedAll_cons_eq c rest p p none
        (by rw [List.isEmpty_iff.mp hc]; exact zed_rover_get_position_empty p), ih p happ hlt]
      rfl
    · have hlen100 : p.length + (c.length + rest.flatten.length) = 100 := by
        have := congrArg List.length happ
        simpa [targetFrame_length payload h92] using this
      rcases Nat.lt_or_ge (p.length + c.length) 100 with hpc | hpc
      · rw [feedAll_cons_eq c rest p (p ++ c) none
          (zed_rover_get_position_incomplete payload p c rest.flatten hc
            (by simp only [List.append_assoc] at happ ⊢; exact happ) h92 (by simp; omega)),
          ih (p ++ c) (by simp only [List.append_assoc] at happ ⊢; exact happ) (by simp; omega)]
        rfl
      · have hrest : rest.flatten = [] := by
          have : rest.flatten.length = 0 := by omega
          exact List.eq_nil_of_length_eq_zero this
        rw [hrest, List.append_nil] at happ
        rw [feedAll_cons_eq c rest p [] (some (parsePVT payload))
          (zed_rover_get_position_complete payload p c hc happ h92),
          feedAll_nil_chunks rest [] hrest]
        rfl

theorem feedAll_partial_run (payload : List Nat) (h92 : payload.length = 92) :
    ∀ (chunks : List (List Nat)) (p t : List Nat),
      (p ++ chunks.flatten) ++ t = targetFrame payload → (p ++ chunks.flatten).length < 100 →
      feedAll chunks p = (p ++ chunks.flatten, []) := by
  intro chunks
  induction chunks with
  | nil =>
    intro p t happ hlt
    rw [List.flatten_nil, List.append_nil]
    rfl
  | cons c rest ih =>
    intro p t happ hlt
    rw [List.flatten_cons] at happ hlt ⊢
    by_cases hc : c.isEmpty
    · rw [feedAll_cons_eq c rest p p none
        (by rw [List.isEmpty_iff.mp hc]; exact zed_rover_get_position_empty p)]
      rw [List.isEmpty_iff.mp hc, List.nil_append] at happ hlt ⊢
      rw [ih p t happ hlt]
      rfl
    · rw [feedAll_cons_eq c rest p (p ++ c) none
        (zed_rover_get_position_incomplete payload p c (rest.flatten ++ t) hc
          (by simp only [List.append_assoc] at happ ⊢; exact happ)
          h92 (by simp at hlt ⊢; omega)),
        ih (p ++ c) t (by simp only [List.append_assoc] at happ ⊢; exact happ)
          (by simp at hlt ⊢; omega)]
      simp

/-!  ## Bus transport (`zed_rover_available`, `src/zed_rover.c` lines 108–128)  -/

/-- `zed_rover_available`: `reg` is the outcome of the 2-byte I2C read of the
`0xFD/0xFE` length registers (`none` = transport error, otherwise the two
`uint8_t` register bytes, high first).  Combines them as
`(len_bytes[0] << 8) | len_bytes[1]`, normalizes the `0xFFFF` sentinel to 0,
and returns -1 on a transport error. -/
def zed_rover_available (reg : Option (Nat × Nat)) : Int :=
  match reg with
  | none => -1
  | some (hi, lo) =>
    if (hi <<< 8) ||| lo = 0xFFFF then 0 else (((hi <<< 8) ||| lo : Nat) : Int)

/-!  ## NTRIP correction client (`src/ntrip_client.c`)  -/

/-- The module-scope state of `ntrip_client.c`: `s_sock`, `s_connected`,
`s_bytes_received` (a `uint32_t`, so kept below `2 ^ 32`), `s_last_data_time`. -/
structure NtripState where
  s_sock : Int
  s_connected : Bool
  s_bytes_received : Nat
  s_last_data_time : Nat
  deriving DecidableEq, Repr

/-- The specification-level session state: the client is `Streaming` exactly
while `s_connected` is set, otherwise `Disconnected` (`Connecting` is
transient inside `ntrip_client_connect` and never observable between calls). -/
inductive SessionState where
  | Disconnected
  | Streaming
  deriving DecidableEq, Repr

def sessionState (st : NtripState) : SessionState :=
  if st.s_connected then .Streaming else .Disconnected

/-- Outcome of the single `recv` call inside `ntrip_client_receive`:
`ok n` is a return value `n ≥ 0` (`0` = orderly remote close), the two error
constructors split a negative return by `errno`. -/
inductive RecvOutcome where
  | ok (n : Nat)
  | errAgain
  | errOther
  deriving DecidableEq, Repr

/-- `ntrip_client_receive` (lines 196–228): bounded read while streaming.
Returns the byte count and the updated module state. -/
def ntrip_client_receive (st : NtripState) (o : RecvOutcome) (now : Nat) : Int × NtripState :=
  if ¬ st.s_connected ∨ st.s_sock < 0 then (-1, st)
  else
    match o with
    | .errAgain => (0, st)
    | .errOther => (-1, { st with s_connected := false, s_sock := -1 })
    | .ok 0 => (-1, { st with s_connected := false, s_sock := -1 })
    | .ok (n + 1) =>
      (((n : Int) + 1),
        { st with s_bytes_received := ((st.s_bytes_received + (n + 1)) % 2 ^ 32),
                  s_last_data_time := now })

/-- `esp_err_t` restricted to the two values `ntrip_client_connect` returns. -/
inductive esp_err_t where
  | ESP_OK
  | ESP_FAIL
  deriving DecidableEq, Repr

/-- The externally visible side effects `ntrip_client_connect` may perform,
in program order. -/
inductive NetEffect where
  | resolveHost
  | createSocket
  | tcpConnect
  | sendRequest
  | recvResponse
  | closeSocket
  deriving DecidableEq, Repr

/-- Environment outcomes for one run of `ntrip_client_connect`:
`gethostbyname` success, the fd returned by `socket`, `connect` success,
`send` success, and the `recv` result (`none` = error, otherwise the
response bytes). -/
structure ConnectEnv where
  dns_ok : Bool
  socket_fd : Int
  connect_ok : Bool
  send_ok : Bool
  recv_response : Option (List Nat)
  deriving DecidableEq, Repr

/-- `strstr(response, needle) != NULL`: `needle` occurs contiguously in
`response`. -/
def hasToken (response needle : List Nat) : Bool :=
  (List.range (response.length + 1)).any fun k => (response.drop k).take needle.length == needle

/-- ASCII codes of a string, for readable byte-list literals. -/
def asciiCodes (s : String) : List Nat := s.toList.map Char.toNat

/-- `ntrip_client_connect` (lines 53–179).  Returns the `esp_err_t` result,
the updated module state, and the list of network side effects performed, in
order.  The early `if (s_connected) return ESP_OK;` is the first branch. -/
def ntrip_client_connect (st : NtripState) (env : ConnectEnv) (now : Nat) :
    esp_err_t × NtripState × List NetEffect :=
  if st.s_connected then (.ESP_OK, st, [])
  else if ¬ env.dns_ok then (.ESP_FAIL, st, [.resolveHost])
  else if env.socket_fd < 0 then
    (.ESP_FAIL, { st with s_sock := env.socket_fd }, [.resolveHost, .createSocket])
  else if ¬ env.connect_ok then
    (.ESP_FAIL, { st with s_sock := -1 },
      [.resolveHost, .createSocket, .tcpConnect, .closeSocket])
  else if ¬ env.send_ok then
    (.ESP_FAIL, { st with s_sock := -1 },
      [.resolveHost, .createSocket, .tcpConnect, .sendRequest, .closeSocket])
  else
    match env.recv_response with
    | none =>
      (.ESP_FAIL, { st with s_sock := -1 },
        [.resolveHost, .createSocket, .tcpConnect, .sendRequest, .recvResponse, .closeSocket])
    | some response =>
      if hasToken response (asciiCodes "200") || hasToken response (asciiCodes "ICY") then
        (.ESP_OK,
          { st with s_sock := env.socket_fd, s_connected := true, s_last_data_time := now },
          [.resolveHost, .createSocket, .tcpConnect, .sendRequest, .recvResponse])
      else
        (.ESP_FAIL, { st with s_sock := -1 },
          [.resolveHost, .createSocket, .tcpConnect, .sendRequest, .recvResponse, .closeSocket])

/-!  ## Base64 encoder (`base64_encode`, `src/ntrip_client.c` lines 30–51)  -/

/-- The `base64_chars` table as ASCII codes. -/
def base64_chars : List Nat :=
  asciiCodes "ABCDEFGHIJKLMNOPQRSTUVWXYZabcdefghijklmnopqrstuvwxyz0123456789+/"

/-- The `while` loop of `base64_encode`.  `remaining` is the unread input
suffix (the `i < input_len` guards of the three `octet` reads appear as the
pattern match on `remaining`), `i` is the source's index counter after those
guarded increments, `j` the output index, `acc` the characters written so
far.  The two `'='` paddings keep the source's conditions
`i > input_len + 1` and `i > input_len` verbatim.  `0x3D` is `'='`. -/
def base64_encode_go (input_len output_len : Nat) :
    List Nat → Nat → Nat → List Nat → List Nat
  | [], _, _, acc => acc
  | a :: rest, i, j, acc =>
    if j < output_len - 4 then
      match rest with
      | [] =>
        let i' := i + 1
        let triple := a <<< 16
        base64_encode_go input_len output_len [] i' (j + 4) (acc ++
          [byteAt base64_chars ((triple >>> 18) &&& 0x3F),
           byteAt base64_chars ((triple >>> 12) &&& 0x3F),
           if i' > input_len + 1 then 0x3D else byteAt base64_chars ((triple >>> 6) &&& 0x3F),
           if i' > input_len then 0x3D else byteAt base64_chars (triple &&& 0x3F)])
      | [b] =>
        let i' := i + 2
        let triple := (a <<< 16) + (b <<< 8)
        base64_encode_go input_len output_len [] i' (j + 4) (acc ++
          [byteAt base64_chars ((triple >>> 18) &&& 0x3F),
           byteAt base64_chars ((triple >>> 12) &&& 0x3F),
           if i' > input_len + 1 then 0x3D else byteAt base64_chars ((triple >>> 6) &&& 0x3F),
           if i' > input_len then 0x3D else byteAt base64_chars (triple &&& 0x3F)])
      | b :: c :: rest2 =>
        let i' := i + 3
        let triple := (a <<< 16) + (b <<< 8) + c
        base64_encode_go input_len output_len rest2 i' (j + 4) (acc ++
          [byteAt base64_chars ((triple >>> 18) &&& 0x3F),
           byteAt base64_chars ((triple >>> 12) &&& 0x3F),
           if i' > input_len + 1 then 0x3D else byteAt base64_chars ((triple >>> 6) &&& 0x3F),
           if i' > input_len then 0x3D else byteAt base64_chars (triple &&& 0x3F)])
    else acc

/-- `base64_encode` applied to `input` with an output buffer of
`output_len` bytes; the result is the encoded character string (the
terminating NUL is not part of the string value). -/
def base64_encode (input : List Nat) (output_len : Nat) : List Nat :=
  base64_encode_go input.length output_len input 0 0 []

/-!  ## WiFi connectivity manager (`find_best_network`)  -/

/-- `wifi_network_t`: a configured (ssid, password) profile. -/
structure wifi_network_t where
  ssid : List Nat
  password : List Nat
  deriving DecidableEq, Repr

/-- The scan-result fields `find_best_network` reads from
`wifi_ap_record_t`: the ssid string and the `int8_t` RSSI. -/
structure wifi_ap_record_t where
  ssid : List Nat
  rssi : Int
  deriving DecidableEq, Repr

/-- The inner `for (j …)` loop of `find_best_network`: the first configured
profile whose ssid compares equal (`strcmp == 0`). -/
def lookup_network (networks : List wifi_network_t) (ssid : List Nat) : Option Nat :=
  networks.findIdx? fun nw => nw.ssid == ssid

/-- The outer loop of `find_best_network`, carrying `best_idx` and
`best_rssi` (initialized to `-1` and `-127` by the caller). -/
def find_best_go (networks : List wifi_network_t) (threshold : Int) :
    List wifi_ap_record_t → Int → Int → Int
  | [], best_idx, _ => best_idx
  | ap :: rest, best_idx, best_rssi =>
    match lookup_network networks ap.ssid with
    | some network_idx =>
      if best_rssi < ap.rssi ∧ threshold ≤ ap.rssi then
        find_best_go networks threshold rest (network_idx : Int) ap.rssi
      else find_best_go networks threshold rest best_idx best_rssi
    | none => find_best_go networks threshold rest best_idx best_rssi

/-- `find_best_network` (unnamed wifi source, lines 378–420), with the
`wifi_networks[]` table and `WIFI_RSSI_THRESHOLD` passed explicitly.
Returns the index into the profile table, or `-1` if no known network with
sufficient signal was seen. -/
def find_best_network (networks : List wifi_network_t) (threshold : Int)
    (ap_records : List wifi_ap_record_t) : Int :=
  find_best_go networks threshold ap_records (-1) (-127)

/-- A scan entry qualifies when its ssid matches a configured profile and its
RSSI meets the threshold (the spec's candidate condition). -/
def qualifies (networks : List wifi_network_t) (threshold : Int)
    (ap : wifi_ap_record_t) : Prop :=
  (lookup_network networks ap.ssid).isSome = true ∧ threshold ≤ ap.rssi

instance (networks : List wifi_network_t) (threshold : Int) (ap : wifi_ap_record_t) :
    Decidable (qualifies networks threshold ap) :=
  decidable_of_iff (_ ∧ _) Iff.rfl

/-!  ## Claim theorems  -/

/-- C1: For every valid wire stream containing exactly one well-formed target
fix frame (correct sync marker, class/id, 92-byte payload length, and
checksum), however that stream is split across arbitrarily many successive
calls of the decoder's feed operation at arbitrary byte boundaries, the
decoder eventually returns the decoded PositionFix exactly once, and never
returns it a second time; a partial frame at the end of the accumulator is
left in place until more bytes arrive.  Formally: feeding any chunk sequence
whose concatenation is the well-formed frame yields exactly the one decoded
fix over the whole run (and an empty accumulator afterwards), and after any
prefix of the calls during which the frame is still incomplete the
accumulator holds exactly the bytes received so far and no fix has been
returned. -/
theorem c1_frame_split_decoded_exactly_once
    (payload : List Nat) (chunks : List (List Nat))
    (h92 : payload.length = 92) (hjoin : chunks.flatten = targetFrame payload) :
    feedAll chunks [] = ([], [parsePVT payload]) ∧
    ∀ k, ((chunks.take k).flatten).length < 100 →
      feedAll (chunks.take k) [] = ((chunks.take k).flatten, []) := by
  constructor
  · exact feedAll_complete_run payload h92 chunks []
      (by rw [List.nil_append, hjoin]) (by simp)
  · intro k hk
    have happ : (chunks.take k).flatten ++ (chunks.drop k).flatten = targetFrame payload := by
      rw [← List.flatten_append, List.take_append_drop, hjoin]
    have := feedAll_partial_run payload h92 (chunks.take k) [] ((chunks.drop k).flatten)
      (by rw [List.nil_append]; exact happ) (by rw [List.nil_append]; exact hk)
    simpa using this

/-- A concrete NAV-PVT payload used by the witnesses: validity bit set,
3D fix, latitude raw value 456471947 at offsets 28–31. -/
def payloadW : List Nat :=
  List.replicate 11 0 ++ [1] ++ List.replicate 8 0 ++ [3] ++ List.replicate 7 0 ++
    [139, 53, 53, 27] ++ List.replicate 60 0

theorem c1_witness :
    payloadW.length = 92 ∧
    [(targetFrame payloadW).take 10, (targetFrame payloadW).drop 10 |>.take 60,
      (targetFrame payloadW).drop 70].flatten = targetFrame payloadW ∧
    feedAll [(targetFrame payloadW).take 10, (targetFrame payloadW).drop 10 |>.take 60,
      (targetFrame payloadW).drop 70] [] = ([], [parsePVT payloadW]) :=
  ⟨by decide, by decide,
    (c1_frame_split_decoded_exactly_once payloadW _ (by decide) (by decide)).1⟩

/-- C4: whenever a feed call leaves more than 200 accumulated bytes and the
call resolved no frame (`resolved` count stayed 0), the accumulator is
cleared to empty before the next call observes it. -/
theorem c4_accumulator_cleared_over_200
    (chunk buf : List Nat) (hne : chunk ≠ [])
    (hlen : 200 < (appendChunk buf chunk).length)
    (hres : (scanLoop (appendChunk buf chunk) 0 0).2.2 = 0) :
    (zed_rover_get_position chunk buf).1 = [] := by
  unfold zed_rover_get_position
  rw [if_neg (by simpa [List.isEmpty_iff] using hne),
    scanLoop_resolved_eq (appendChunk buf chunk) 0 0 hres]
  show (if 200 < (appendChunk buf chunk).length then [] else appendChunk buf chunk, none).1 = []
  rw [if_pos hlen]

theorem c4_witness :
    List.replicate 201 0 ≠ ([] : List Nat) ∧
    200 < (appendChunk [] (List.replicate 201 0)).length ∧
    (scanLoop (appendChunk [] (List.replicate 201 0)) 0 0).2.2 = 0 ∧
    (zed_rover_get_position (List.replicate 201 0) []).1 = [] := by
  have h1 : appendChunk [] (List.replicate 201 0) = List.replicate 201 0 := by decide
  have h2 : scanLoop (List.replicate 201 0) 0 0 = (List.replicate 201 0, none, 0) := by
    apply scanLoop_nosync
    intro j hj hlen hsync
    have hz : ∀ n k, byteAt (List.replicate n 0) k = 0 := by
      intro n
      induction n with
      | zero => intro k; rfl
      | succ n ih =>
        intro k
        cases k with
        | zero => rfl
        | succ k => exact ih k
    have hb := hsync.1
    rw [hz 201 j] at hb
    omega
  have h3 : (scanLoop (appendChunk [] (List.replicate 201 0)) 0 0).2.2 = 0 := by
    rw [h1, h2]
  exact ⟨by decide, by decide, h3,
    c4_accumulator_cleared_over_200 (List.replicate 201 0) [] (by decide) (by decide) h3⟩

/-- C5: for every successfully decoded target fix message, `valid` is true
iff bit 0 of the validity-flags byte (payload offset 11) is set and the
fix-quality byte (payload offset 20) is at least 2. -/
theorem c5_valid_iff_flags_and_quality (payload : List Nat) (h92 : payload.length = 92) :
    (zed_rover_get_position (targetFrame payload) []).2 = some (parsePVT payload) ∧
    ((parsePVT payload).valid = true ↔
      byteAt payload 11 % 2 = 1 ∧ 2 ≤ byteAt payload 20) := by
  constructor
  · rw [zed_rover_get_position_complete payload [] (targetFrame payload)
      (by simp [targetFrame]) (List.nil_append _) h92]
  · simp only [parsePVT, Nat.and_one_is_mod, decide_eq_true_eq]
    constructor
    · rintro ⟨h1, h2⟩
      exact ⟨by omega, h2⟩
    · rintro ⟨h1, h2⟩
      exact ⟨by omega, h2⟩

theorem c5_witness :
    payloadW.length = 92 ∧
    (zed_rover_get_position (targetFrame payloadW) []).2 = some (parsePVT payloadW) ∧
    ((parsePVT payloadW).valid = true ↔
      byteAt payloadW 11 % 2 = 1 ∧ 2 ≤ byteAt payloadW 20) :=
  ⟨by decide, (c5_valid_iff_flags_and_quality payloadW (by decide)).1,
    (c5_valid_iff_flags_and_quality payloadW (by decide)).2⟩

/-- A NAV-PVT frame that is well-formed except for its two trailing checksum
bytes, which are given explicitly. -/
def corruptFrame (payload : List Nat) (cka ckb : Nat) : List Nat :=
  [0xB5, 0x62] ++ ([0x01, 0x07, 92, 0] ++ payload) ++ [cka, ckb]

theorem corruptFrame_length (payload : List Nat) (cka ckb : Nat)
    (h92 : payload.length = 92) : (corruptFrame payload cka ckb).length = 100 := by
  simp [corruptFrame, h92]

theorem corruptFrame_byte_header (payload : List Nat) (cka ckb : Nat) :
    byteAt (corruptFrame payload cka ckb) 0 = 0xB5 ∧
    byteAt (corruptFrame payload cka ckb) 1 = 0x62 ∧
    byteAt (corruptFrame payload cka ckb) 4 = 92 ∧
    byteAt (corruptFrame payload cka ckb) 5 = 0 := by
  simp [corruptFrame, byteAt]

theorem corruptFrame_plen (payload : List Nat) (cka ckb : Nat) :
    ubx_payload_len (corruptFrame payload cka ckb) 0 = 92 := by
  unfold ubx_payload_len
  rw [(corruptFrame_byte_header payload cka ckb).2.2.1,
    (corruptFrame_byte_header payload cka ckb).2.2.2]
  rfl

theorem corruptFrame_ck_bytes (payload : List Nat) (cka ckb : Nat)
    (h92 : payload.length = 92) :
    byteAt (corruptFrame payload cka ckb) 98 = cka ∧
    byteAt (corruptFrame payload cka ckb) 99 = ckb := by
  have hf : corruptFrame payload cka ckb =
      ([0xB5, 0x62] ++ ([0x01, 0x07, 92, 0] ++ payload)) ++ [cka, ckb] := by
    simp [corruptFrame]
  have hlen : ([0xB5, 0x62] ++ ([0x01, 0x07, 92, 0] ++ payload)).length = 98 := by
    simp [h92]
  constructor
  · show (corruptFrame payload cka ckb).getD 98 0 = _
    rw [hf, List.getD_append_right _ _ _ _ (by omega), hlen]
    rfl
  · show (corruptFrame payload cka ckb).getD 99 0 = _
    rw [hf, List.getD_append_right _ _ _ _ (by omega), hlen]
    rfl

theorem corruptFrame_not_checksumOk (payload : List Nat) (cka ckb : Nat)
    (h92 : payload.length = 92)
    (hflip : (cka = (ubx_checksum ([0x01, 0x07, 92, 0] ++ payload)).1 ∧
              ckb ≠ (ubx_checksum ([0x01, 0x07, 92, 0] ++ payload)).2) ∨
             (cka ≠ (ubx_checksum ([0x01, 0x07, 92, 0] ++ payload)).1 ∧
              ckb = (ubx_checksum ([0x01, 0x07, 92, 0] ++ payload)).2)) :
    ¬ checksumOk (corruptFrame payload cka ckb) 0 92 := by
  have hdrop : ((corruptFrame payload cka ckb).drop 2).take 96 =
      [0x01, 0x07, 92, 0] ++ payload := by
    have : (corruptFrame payload cka ckb).drop 2 =
        ([0x01, 0x07, 92, 0] ++ payload) ++ [cka, ckb] := by
      simp [corruptFrame]
    rw [this, List.take_left' (by simp [h92])]
  intro hck
  obtain ⟨h1, h2⟩ := hck
  rw [show (0 + 2 : Nat) = 2 from rfl, show (4 + 92 : Nat) = 96 from rfl, hdrop] at h1 h2
  rw [show (0 + 6 + 92 : Nat) = 98 from rfl, (corruptFrame_ck_bytes payload cka ckb h92).1] at h1
  rw [show (0 + 7 + 92 : Nat) = 99 from rfl, (corruptFrame_ck_bytes payload cka ckb h92).2] at h2
  rcases hflip with ⟨_, hb⟩ | ⟨ha, _⟩
  · exact hb h2.symm
  · exact ha h1.symm

/-- C3: a frame that is well-formed except that exactly one of its two
checksum bytes is flipped is rejected without yielding a fix: the sync marker
is treated as a false positive and the scan advances by exactly one byte
(first conjunct), and the feed call returns no fix and leaves the whole
accumulator in place (second conjunct; the side condition rules out a second
sync marker inside the corrupted frame, under which the remainder would be
rescanned rather than preserved verbatim). -/
theorem c3_flipped_checksum_rejected (payload : List Nat) (cka ckb : Nat)
    (h92 : payload.length = 92)
    (hflip : (cka = (ubx_checksum ([0x01, 0x07, 92, 0] ++ payload)).1 ∧
              ckb ≠ (ubx_checksum ([0x01, 0x07, 92, 0] ++ payload)).2) ∨
             (cka ≠ (ubx_checksum ([0x01, 0x07, 92, 0] ++ payload)).1 ∧
              ckb = (ubx_checksum ([0x01, 0x07, 92, 0] ++ payload)).2))
    (hnosync : ∀ j ∈ List.range (corruptFrame payload cka ckb).length, 1 ≤ j →
      ¬ syncAt (corruptFrame payload cka ckb) j) :
    scanLoop (corruptFrame payload cka ckb) 0 0 =
      scanLoop (corruptFrame payload cka ckb) 1 0 ∧
    zed_rover_get_position (corruptFrame payload cka ckb) [] =
      (corruptFrame payload cka ckb, none) := by
  have hlen := corruptFrame_length payload cka ckb h92
  have hplen := corruptFrame_plen payload cka ckb
  have hdr := corruptFrame_byte_header payload cka ckb
  have hstep : scanLoop (corruptFrame payload cka ckb) 0 0 =
      scanLoop (corruptFrame payload cka ckb) 1 0 := by
    apply scanLoop_adv_badck _ _ _ (by omega) ⟨hdr.1, hdr.2.1⟩ (by rw [hplen]; omega)
    rw [hplen]
    exact corruptFrame_not_checksumOk payload cka ckb h92 hflip
  have hrest : scanLoop (corruptFrame payload cka ckb) 1 0 =
      (corruptFrame payload cka ckb, none, 0) := by
    apply scanLoop_nosync
    intro j hj hjl
    exact hnosync j (List.mem_range.mpr (by omega)) hj
  refine ⟨hstep, ?_⟩
  unfold zed_rover_get_position
  rw [if_neg (by simp [corruptFrame]), appendChunk_of_le [] _ (by simp; omega),
    List.nil_append, hstep, hrest]
  show (if 200 < (corruptFrame payload cka ckb).length then []
    else corruptFrame payload cka ckb, none) = _
  rw [if_neg (by omega)]

theorem c3_witness :
    (List.replicate 92 0).length = 92 ∧
    (100 = (ubx_checksum ([0x01, 0x07, 92, 0] ++ List.replicate 92 0)).1 ∧
      194 ≠ (ubx_checksum ([0x01, 0x07, 92, 0] ++ List.replicate 92 0)).2) ∧
    (∀ j ∈ List.range (corruptFrame (List.replicate 92 0) 100 194).length, 1 ≤ j →
      ¬ syncAt (corruptFrame (List.replicate 92 0) 100 194) j) ∧
    zed_rover_get_position (corruptFrame (List.replicate 92 0) 100 194) [] =
      (corruptFrame (List.replicate 92 0) 100 194, none) :=
  ⟨by decide, ⟨by decide, by decide⟩, by decide,
    (c3_flipped_checksum_rejected (List.replicate 92 0) 100 194 (by decide)
      (Or.inl ⟨by decide, by decide⟩) (by decide)).2⟩

/-- C8: `zed_rover_available` returns the two register bytes combined
big-endian when the read succeeds and the combined value is not the `0xFFFF`
sentinel, returns 0 (not -1, not 65535) on the sentinel, and returns -1 on a
transport-level error. -/
theorem c8_available_sentinel_normalized (hi lo : Nat) (hhi : hi < 256) (hlo : lo < 256) :
    zed_rover_available none = -1 ∧
    zed_rover_available (some (hi, lo)) =
      (if hi * 256 + lo = 65535 then 0 else ((hi * 256 + lo : Nat) : Int)) ∧
    (hi * 256 + lo = 65535 → zed_rover_available (some (hi, lo)) = 0) := by
  have hcomb : (hi <<< 8) ||| lo = hi * 256 + lo := by
    rw [Nat.lor_comm, lor_shiftLeft_eq_add lo hi 8 (by omega)]
    omega
  refine ⟨rfl, ?_, ?_⟩
  · show (if (hi <<< 8) ||| lo = 0xFFFF then (0 : Int) else (((hi <<< 8) ||| lo : Nat) : Int)) = _
    rw [hcomb]
  · intro hsent
    show (if (hi <<< 8) ||| lo = 0xFFFF then (0 : Int) else (((hi <<< 8) ||| lo : Nat) : Int)) = 0
    rw [hcomb, if_pos hsent]

theorem c8_witness :
    (255 : Nat) < 256 ∧ (254 : Nat) < 256 ∧
    zed_rover_available (some (255, 254)) =
      (if 255 * 256 + 254 = 65535 then 0 else ((255 * 256 + 254 : Nat) : Int)) ∧
    zed_rover_available none = -1 :=
  ⟨by decide, by decide,
    (c8_available_sentinel_normalized 255 254 (by decide) (by decide)).2.1,
    (c8_available_sentinel_normalized 255 254 (by decide) (by decide)).1⟩

theorem byteAt_lt_of_bytes (p : List Nat) (k : Nat) (hk : k < p.length)
    (h : ∀ b ∈ p, b < 256) : byteAt p k < 256 := by
  rw [byteAt, List.getD_eq_getElem p 0 hk]
  exact h _ (List.getElem_mem hk)

/-- Unfolding the or/shift little-endian 32-bit read into its additive form,
for byte-valued buffers. -/
theorem le32_eq_add (p : List Nat) (k : Nat)
    (h0 : byteAt p k < 256) (h1 : byteAt p (k + 1) < 256) (h2 : byteAt p (k + 2) < 256) :
    le32 p k = byteAt p k + 256 * byteAt p (k + 1) + 65536 * byteAt p (k + 2) +
      16777216 * byteAt p (k + 3) := by
  unfold le32
  rw [lor_shiftLeft_eq_add _ _ 8 (by norm_num; omega),
    lor_shiftLeft_eq_add _ _ 16 (by norm_num; omega),
    lor_shiftLeft_eq_add _ _ 24 (by norm_num; omega)]
  norm_num

/-- C9: for every decoded target fix message, latitude and longitude are the
little-endian signed 32-bit payload fields at offsets 28 and 24 scaled by
1e-7 degrees, and altitude (offset 36) and the two accuracies (offsets 40,
44) are little-endian 32-bit millimetre fields divided by 1000; in
particular a latitude field holding raw 456471947 decodes to 45.6471947
degrees within 1e-7. -/
theorem c9_decode_arithmetic (payload : List Nat) (h92 : payload.length = 92)
    (hbytes : ∀ b ∈ payload, b < 256) :
    (zed_rover_get_position (targetFrame payload) []).2 = some (parsePVT payload) ∧
    (parsePVT payload).latitude = (toInt32 (byteAt payload 28 + 256 * byteAt payload 29 +
      65536 * byteAt payload 30 + 16777216 * byteAt payload 31) : ℚ) / 10 ^ 7 ∧
    (parsePVT payload).longitude = (toInt32 (byteAt payload 24 + 256 * byteAt payload 25 +
      65536 * byteAt payload 26 + 16777216 * byteAt payload 27) : ℚ) / 10 ^ 7 ∧
    (parsePVT payload).altitude_msl = (toInt32 (byteAt payload 36 + 256 * byteAt payload 37 +
      65536 * byteAt payload 38 + 16777216 * byteAt payload 39) : ℚ) / 1000 ∧
    (parsePVT payload).h_acc = ((byteAt payload 40 + 256 * byteAt payload 41 +
      65536 * byteAt payload 42 + 16777216 * byteAt payload 43 : Nat) : ℚ) / 1000 ∧
    (parsePVT payload).v_acc = ((byteAt payload 44 + 256 * byteAt payload 45 +
      65536 * byteAt payload 46 + 16777216 * byteAt payload 47 : Nat) : ℚ) / 1000 ∧
    (byteAt payload 28 + 256 * byteAt payload 29 + 65536 * byteAt payload 30 +
        16777216 * byteAt payload 31 = 456471947 →
      (parsePVT payload).latitude = (45.6471947 : ℚ) ∧
      |(parsePVT payload).latitude - (45.6471947 : ℚ)| ≤ 1 / 10 ^ 7) := by
  have hb : ∀ k, k < 92 → byteAt payload k < 256 := fun k hk =>
    byteAt_lt_of_bytes payload k (by omega) hbytes
  have e28 := le32_eq_add payload 28 (hb 28 (by omega)) (hb 29 (by omega)) (hb 30 (by omega))
  have e24 := le32_eq_add payload 24 (hb 24 (by omega)) (hb 25 (by omega)) (hb 26 (by omega))
  have e36 := le32_eq_add payload 36 (hb 36 (by omega)) (hb 37 (by omega)) (hb 38 (by omega))
  have e40 := le32_eq_add payload 40 (hb 40 (by omega)) (hb 41 (by omega)) (hb 42 (by omega))
  have e44 := le32_eq_add payload 44 (hb 44 (by omega)) (hb 45 (by omega)) (hb 46 (by omega))
  refine ⟨?_, ?_, ?_, ?_, ?_, ?_, ?_⟩
  · rw [zed_rover_get_position_complete payload [] (targetFrame payload)
      (by simp [targetFrame]) (List.nil_append _) h92]
  · rw [zed_position_t.latitude]
    show (toInt32 (le32 payload 28) : ℚ) / 10 ^ 7 = _
    rw [e28]
  · rw [zed_position_t.longitude]
    show (toInt32 (le32 payload 24) : ℚ) / 10 ^ 7 = _
    rw [e24]
  · rw [zed_position_t.altitude_msl]
    show (toInt32 (le32 payload 36) : ℚ) / 1000 = _
    rw [e36]
  · rw [zed_position_t.h_acc]
    show ((le32 payload 40 : Nat) : ℚ) / 1000 = _
    rw [e40]
  · rw [zed_position_t.v_acc]
    show ((le32 payload 44 : Nat) : ℚ) / 1000 = _
    rw [e44]
  · intro hraw
    have hlat : (parsePVT payload).latitude = (456471947 : ℚ) / 10 ^ 7 := by
      rw [zed_position_t.latitude]
      show (toInt32 (le32 payload 28) : ℚ) / 10 ^ 7 = _
      rw [e28, hraw]
      norm_num [toInt32]
    constructor
    · rw [hlat]
      norm_num
    · rw [hlat]
      norm_num

theorem c9_witness :
    payloadW.length = 92 ∧ (∀ b ∈ payloadW, b < 256) ∧
    (byteAt payloadW 28 + 256 * byteAt payloadW 29 + 65536 * byteAt payloadW 30 +
      16777216 * byteAt payloadW 31 = 456471947) ∧
    ((parsePVT payloadW).latitude = (45.6471947 : ℚ) ∧
      |(parsePVT payloadW).latitude - (45.6471947 : ℚ)| ≤ 1 / 10 ^ 7) :=
  ⟨by decide, by decide, by decide,
    (c9_decode_arithmetic payloadW (by decide) (by decide)).2.2.2.2.2.2 (by decide)⟩

/-- C2 (code bug): the encoder's `'='`-padding conditions `i > input_len` can
never hold (every `i++` is guarded by `i < input_len`), so for the claimed
example input of length 19 ≢ 0 (mod 3) the code emits the zero-filled
characters `AA` where the standard encoding has `==`. -/
theorem c2_base64_padding_never_emitted :
    base64_encode (asciiCodes "Aladdin:open sesame") 256 =
      asciiCodes "QWxhZGRpbjpvcGVuIHNlc2FtZQAA" ∧
    base64_encode (asciiCodes "Aladdin:open sesame") 256 ≠
      asciiCodes "QWxhZGRpbjpvcGVuIHNlc2FtZQ==" := by
  refine ⟨by decide, by decide⟩

/-!  ### Selection-loop lemmas for `find_best_network`  -/

theorem find_best_go_cons_known (networks : List wifi_network_t) (threshold : Int)
    (a : wifi_ap_record_t) (rest : List wifi_ap_record_t) (bi br : Int) (ni : Nat)
    (hl : lookup_network networks a.ssid = some ni) :
    find_best_go networks threshold (a :: rest) bi br =
      if br < a.rssi ∧ threshold ≤ a.rssi
      then find_best_go networks threshold rest (ni : Int) a.rssi
      else find_best_go networks threshold rest bi br := by
  show (match lookup_network networks a.ssid with
    | some network_idx =>
      if br < a.rssi ∧ threshold ≤ a.rssi
      then find_best_go networks threshold rest (network_idx : Int) a.rssi
      else find_best_go networks threshold rest bi br
    | none => find_best_go networks threshold rest bi br) = _
  rw [hl]

theorem find_best_go_cons_unknown (networks : List wifi_network_t) (threshold : Int)
    (a : wifi_ap_record_t) (rest : List wifi_ap_record_t) (bi br : Int)
    (hl : lookup_network networks a.ssid = none) :
    find_best_go networks threshold (a :: rest) bi br =
      find_best_go networks threshold rest bi br := by
  show (match lookup_network networks a.ssid with
    | some network_idx =>
      if br < a.rssi ∧ threshold ≤ a.rssi
      then find_best_go networks threshold rest (network_idx : Int) a.rssi
      else find_best_go networks threshold rest bi br
    | none => find_best_go networks threshold rest bi br) = _
  rw [hl]

theorem find_best_go_none (networks : List wifi_network_t) (threshold : Int) :
    ∀ (aps : List wifi_ap_record_t) (bi br : Int),
      (∀ ap ∈ aps, ¬ (qualifies networks threshold ap ∧ br < ap.rssi)) →
      find_best_go networks threshold aps bi br = bi := by
  intro aps
  induction aps with
  | nil => intro bi br _; rfl
  | cons a rest ih =>
    intro bi br h
    cases hl : lookup_network networks a.ssid with
    | none =>
      rw [find_best_go_cons_unknown networks threshold a rest bi br hl]
      exact ih bi br fun ap hap => h ap (List.mem_cons_of_mem a hap)
    | some j =>
      rw [find_best_go_cons_known networks threshold a rest bi br j hl, if_neg ?_]
      · exact ih bi br fun ap hap => h ap (List.mem_cons_of_mem a hap)
      · intro ⟨hbr, hthr⟩
        exact h a (List.mem_cons_self a rest) ⟨⟨by rw [hl]; rfl, hthr⟩, hbr⟩

theorem find_best_go_nonneg (networks : List wifi_network_t) (threshold : Int) :
    ∀ (aps : List wifi_ap_record_t) (bi br : Int), 0 ≤ bi →
      0 ≤ find_best_go networks threshold aps bi br := by
  intro aps
  induction aps with
  | nil => intro bi br h; exact h
  | cons a rest ih =>
    intro bi br h
    cases hl : lookup_network networks a.ssid with
    | none =>
      rw [find_best_go_cons_unknown networks threshold a rest bi br hl]
      exact ih bi br h
    | some j =>
      rw [find_best_go_cons_known networks threshold a rest bi br j hl]
      by_cases hc : br < a.rssi ∧ threshold ≤ a.rssi
      · rw [if_pos hc]
        exact ih (j : Int) a.rssi (by omega)
      · rw [if_neg hc]
        exact ih bi br h

theorem find_best_go_some (networks : List wifi_network_t) (threshold : Int) :
    ∀ (aps : List wifi_ap_record_t) (bi br : Int),
      (∃ ap ∈ aps, qualifies networks threshold ap ∧ br < ap.rssi) →
      0 ≤ find_best_go networks threshold aps bi br := by
  intro aps
  induction aps with
  | nil => intro bi br h; exact absurd h (by simp)
  | cons a rest ih =>
    intro bi br h
    cases hl : lookup_network networks a.ssid with
    | none =>
      rw [find_best_go_cons_unknown networks threshold a rest bi br hl]
      apply ih bi br
      obtain ⟨ap, hap, hq⟩ := h
      rcases List.mem_cons.mp hap with rfl | hmem
      · rw [qualifies, hl] at hq
        exact absurd hq.1.1 (by simp)
      · exact ⟨ap, hmem, hq⟩
    | some j =>
      rw [find_best_go_cons_known networks threshold a rest bi br j hl]
      by_cases hc : br < a.rssi ∧ threshold ≤ a.rssi
      · rw [if_pos hc]
        exact find_best_go_nonneg networks threshold rest (j : Int) a.rssi (by omega)
      · rw [if_neg hc]
        apply ih bi br
        obtain ⟨ap, hap, hq⟩ := h
        rcases List.mem_cons.mp hap with rfl | hmem
        · exact absurd ⟨hq.2, hq.1.2⟩ hc
        · exact ⟨ap, hmem, hq⟩

theorem find_best_go_first_max (networks : List wifi_network_t) (threshold : Int) :
    ∀ (aps : List wifi_ap_record_t) (k : Nat) (bi br : Int) (hk : k < aps.length) (j : Nat),
      qualifies networks threshold (aps.get ⟨k, hk⟩) →
      br < (aps.get ⟨k, hk⟩).rssi →
      (∀ ap ∈ aps, qualifies networks threshold ap → ap.rssi ≤ (aps.get ⟨k, hk⟩).rssi) →
      (∀ (k2 : Nat) (hk2 : k2 < k), qualifies networks threshold (aps.get ⟨k2, by omega⟩) →
        (aps.get ⟨k2, by omega⟩).rssi < (aps.get ⟨k, hk⟩).rssi) →
      lookup_network networks (aps.get ⟨k, hk⟩).ssid = some j →
      find_best_go networks threshold aps bi br = (j : Int) := by
  intro aps
  induction aps with
  | nil =>
    intro k bi br hk
    exact absurd hk (by simp)
  | cons a rest ih =>
    intro k bi br hk j hq hbr hmax hfirst hl
    cases k with
    | zero =>
      have hget0 : (a :: rest).get ⟨0, hk⟩ = a := rfl
      rw [hget0] at hq hbr hmax hl
      rw [find_best_go_cons_known networks threshold a rest bi br j hl,
        if_pos ⟨hbr, hq.2⟩]
      apply find_best_go_none
      intro ap hap ⟨hapq, hapgt⟩
      have := hmax ap (List.mem_cons_of_mem a hap) hapq
      omega
    | succ k1 =>
      have hk1 : k1 < rest.length := by
        simp at hk
        omega
      have hgetk : (a :: rest).get ⟨k1 + 1, hk⟩ = rest.get ⟨k1, hk1⟩ := rfl
      rw [hgetk] at hq hbr hmax hfirst hl
      have hmax2 : ∀ ap ∈ rest, qualifies networks threshold ap →
          ap.rssi ≤ (rest.get ⟨k1, hk1⟩).rssi :=
        fun ap hap hq2 => hmax ap (List.mem_cons_of_mem a hap) hq2
      have hfirst2 : ∀ (k2 : Nat) (hk2 : k2 < k1),
          qualifies networks threshold (rest.get ⟨k2, by omega⟩) →
          (rest.get ⟨k2, by omega⟩).rssi < (rest.get ⟨k1, hk1⟩).rssi := by
        intro k2 hk2 hq2
        exact hfirst (k2 + 1) (by omega) hq2
      cases hla : lookup_network networks a.ssid with
      | none =>
        rw [find_best_go_cons_unknown networks threshold a rest bi br hla]
        exact ih k1 bi br hk1 j hq hbr hmax2 hfirst2 hl
      | some ja =>
        rw [find_best_go_cons_known networks threshold a rest bi br ja hla]
        by_cases hc : br < a.rssi ∧ threshold ≤ a.rssi
        · rw [if_pos hc]
          have haq : qualifies networks threshold a := ⟨by rw [hla]; rfl, hc.2⟩
          have halt : a.rssi < (rest.get ⟨k1, hk1⟩).rssi := hfirst 0 (by omega) haq
          exact ih k1 (ja : Int) a.rssi hk1 j hq halt hmax2 hfirst2 hl
        · rw [if_neg hc]
          exact ih k1 bi br hk1 j hq hbr hmax2 hfirst2 hl

/-- C6 counterexample: with threshold −127 dBm, a scan containing a single
known network at RSSI −127 dBm has a qualifying entry (identifier known and
signal meeting the threshold), yet the selection returns no profile (−1):
`best_rssi` is seeded with −127 and the comparison is strict. -/
theorem c6_counterexample :
    find_best_network [⟨asciiCodes "A", asciiCodes "pw"⟩] (-127)
      [⟨asciiCodes "A", -127⟩] = -1 ∧
    qualifies [⟨asciiCodes "A", asciiCodes "pw"⟩] (-127) ⟨asciiCodes "A", -127⟩ := by
  refine ⟨by decide, by decide⟩

/-- C6 (amended): for every scan list, profile table, and RSSI threshold of
at least −126 dBm, the selection returns no profile exactly when no scan
entry both matches a known profile and meets the threshold, and whenever a
scan entry is qualifying, of maximal signal strength among qualifying
entries, and the first entry attaining that maximum, the selection returns
that entry's (first-matching) profile index. -/
theorem c6_best_known_network (networks : List wifi_network_t) (threshold : Int)
    (aps : List wifi_ap_record_t) (hthr : -126 ≤ threshold) :
    (find_best_network networks threshold aps = -1 ↔
      ∀ ap ∈ aps, ¬ qualifies networks threshold ap) ∧
    ∀ (k : Nat) (hk : k < aps.length) (j : Nat),
      qualifies networks threshold (aps.get ⟨k, hk⟩) →
      (∀ ap ∈ aps, qualifies networks threshold ap → ap.rssi ≤ (aps.get ⟨k, hk⟩).rssi) →
      (∀ (k2 : Nat) (hk2 : k2 < k), qualifies networks threshold (aps.get ⟨k2, by omega⟩) →
        (aps.get ⟨k2, by omega⟩).rssi < (aps.get ⟨k, hk⟩).rssi) →
      lookup_network networks (aps.get ⟨k, hk⟩).ssid = some j →
      find_best_network networks threshold aps = (j : Int) := by
  constructor
  · constructor
    · intro hres ap hap hq
      have : 0 ≤ find_best_network networks threshold aps :=
        find_best_go_some networks threshold aps (-1) (-127)
          ⟨ap, hap, hq, by have := hq.2; omega⟩
      omega
    · intro hnone
      apply find_best_go_none
      intro ap hap ⟨hq, _⟩
      exact hnone ap hap hq
  · intro k hk j hq hmax hfirst hl
    exact find_best_go_first_max networks threshold aps k (-1) (-127) hk j hq
      (by have := hq.2; omega) hmax hfirst hl

theorem c6_witness :
    (-126 : Int) ≤ -70 ∧
    find_best_network [⟨asciiCodes "A", asciiCodes "p1"⟩, ⟨asciiCodes "C", asciiCodes "p2"⟩]
      (-70) [⟨asciiCodes "A", -45⟩, ⟨asciiCodes "B", -30⟩, ⟨asciiCodes "C", -60⟩] = 0 := by
  refine ⟨by decide, ?_⟩
  have h := (c6_best_known_network
    [⟨asciiCodes "A", asciiCodes "p1"⟩, ⟨asciiCodes "C", asciiCodes "p2"⟩] (-70)
    [⟨asciiCodes "A", -45⟩, ⟨asciiCodes "B", -30⟩, ⟨asciiCodes "C", -60⟩]
    (by decide)).2 0 (by decide) 0 (by decide) (by decide)
    (by intro k2 hk2; omega) (by decide)
  exact h

/-- C7: while Streaming, receive returns the positive byte count and updates
the last-activity timestamp and the received-byte counter when data arrives;
returns 0 with no state change when no data is available (poll-timeout
expiry); and returns -1, closes the socket, and transitions the session to
Disconnected on a hard read error or an orderly remote close. -/
theorem c7_receive_while_streaming (st : NtripState) (now : Nat)
    (hconn : st.s_connected = true) (hsock : 0 ≤ st.s_sock) :
    (∀ n : Nat, ntrip_client_receive st (.ok (n + 1)) now =
      ((n : Int) + 1,
        { st with s_bytes_received := ((st.s_bytes_received + (n + 1)) % 2 ^ 32),
                  s_last_data_time := now }) ∧
      0 < (ntrip_client_receive st (.ok (n + 1)) now).1 ∧
      sessionState (ntrip_client_receive st (.ok (n + 1)) now).2 = .Streaming) ∧
    ntrip_client_receive st .errAgain now = (0, st) ∧
    ntrip_client_receive st .errOther now =
      (-1, { st with s_connected := false, s_sock := -1 }) ∧
    ntrip_client_receive st (.ok 0) now =
      (-1, { st with s_connected := false, s_sock := -1 }) ∧
    sessionState { st with s_connected := false, s_sock := -1 } = .Disconnected ∧
    ({ st with s_connected := false, s_sock := -1 } : NtripState).s_sock = -1 := by
  have hguard : ¬ (¬ st.s_connected ∨ st.s_sock < 0) := by
    rw [hconn]
    simp
    omega
  refine ⟨?_, ?_, ?_, ?_, ?_, rfl⟩
  · intro n
    refine ⟨?_, ?_, ?_⟩
    · unfold ntrip_client_receive
      rw [if_neg hguard]
    · unfold ntrip_client_receive
      rw [if_neg hguard]
      show (0 : Int) < (n : Int) + 1
      omega
    · unfold ntrip_client_receive
      rw [if_neg hguard]
      show sessionState { st with
        s_bytes_received := ((st.s_bytes_received + (n + 1)) % 2 ^ 32)
        s_last_data_time := now } = .Streaming
      unfold sessionState
      rw [show ({ st with
        s_bytes_received := ((st.s_bytes_received + (n + 1)) % 2 ^ 32)
        s_last_data_time := now } : NtripState).s_connected = st.s_connected from rfl, hconn]
      rfl
  · unfold ntrip_client_receive
    rw [if_neg hguard]
  · unfold ntrip_client_receive
    rw [if_neg hguard]
  · unfold ntrip_client_receive
    rw [if_neg hguard]
  · unfold sessionState
    rw [show ({ st with s_connected := false, s_sock := -1 } : NtripState).s_connected =
      false from rfl]
    rfl

theorem c7_witness :
    (⟨5, true, 10, 0⟩ : NtripState).s_connected = true ∧
    (0 : Int) ≤ (⟨5, true, 10, 0⟩ : NtripState).s_sock ∧
    ntrip_client_receive ⟨5, true, 10, 0⟩ (.ok (3 + 1)) 7 =
      ((3 : Int) + 1, { (⟨5, true, 10, 0⟩ : NtripState) with
        s_bytes_received := ((10 + (3 + 1)) % 2 ^ 32), s_last_data_time := 7 }) ∧
    ntrip_client_receive ⟨5, true, 10, 0⟩ .errOther 7 =
      (-1, { (⟨5, true, 10, 0⟩ : NtripState) with s_connected := false, s_sock := -1 }) :=
  ⟨rfl, by decide,
    ((c7_receive_while_streaming ⟨5, true, 10, 0⟩ 7 rfl (by decide)).1 3).1,
    (c7_receive_while_streaming ⟨5, true, 10, 0⟩ 7 rfl (by decide)).2.2.1⟩

/-- C10: calling connect while the session is already Streaming is an
idempotent no-op: it returns success with the client state unchanged and
performs no network side effects (no host resolution, no socket creation,
no handshake). -/
theorem c10_connect_idempotent_while_streaming (st : NtripState) (env : ConnectEnv)
    (now : Nat) (hconn : st.s_connected = true) :
    ntrip_client_connect st env now = (.ESP_OK, st, []) := by
  unfold ntrip_client_connect
  rw [if_pos hconn]

theorem c10_witness :
    (⟨3, true, 99, 4⟩ : NtripState).s_connected = true ∧
    ntrip_client_connect ⟨3, true, 99, 4⟩ ⟨true, 7, true, true, some []⟩ 11 =
      (.ESP_OK, ⟨3, true, 99, 4⟩, []) :=
  ⟨rfl, c10_connect_idempotent_while_streaming ⟨3, true, 99, 4⟩
    ⟨true, 7, true, true, some []⟩ 11 rfl⟩
